import Mathlib

/-!
Shallow embedding of the websocket room-coordination core of the repository:
the room manager (`backend/ws/manager.py`, class `RoomManager`) and the
session router (`backend/ws/router.py`, handler `room_ws` and the roster
endpoint `ws_roster`).

Python dictionaries are modelled as association lists over `String` keys,
`time.time()` instants and TTLs as `Nat`, websockets as `Nat` identifiers,
and `Optional[str]` as `Option String`.  Python truthiness tests on
`Optional[str]` values (`if not rs.recorder_holder`, `if exclude_device_id`)
are modelled by `pyTruthy`.
-/

/-- Lookup in a Python-dict modelled as an association list:
`d.get(k)` returns the value at the first matching key. -/
def dictGet {α : Type} : List (String × α) → String → Option α
  | [], _ => none
  | (k', v') :: rest, k => if k' = k then some v' else dictGet rest k

/-- Assignment `d[k] = v` on a Python-dict modelled as an association list:
replaces the value at an existing key in place, otherwise appends the new
entry at the end (Python dicts preserve insertion order). -/
def dictSet {α : Type} : List (String × α) → String → α → List (String × α)
  | [], k, v => [(k, v)]
  | (k', v') :: rest, k, v =>
    if k' = k then (k, v) :: rest else (k', v') :: dictSet rest k v

/-- Deletion `d.pop(k, None)` on a Python-dict modelled as an association
list: drops every entry with the key (a dict holds at most one). -/
def dictErase {α : Type} : List (String × α) → String → List (String × α)
  | [], _ => []
  | (k', v') :: rest, k =>
    if k' = k then dictErase rest k else (k', v') :: dictErase rest k

/-- Python `d.setdefault(k, default)`: returns the stored value and the
possibly extended dict. -/
def dictSetdefault {α : Type} (l : List (String × α)) (k : String) (d : α) :
    α × List (String × α) :=
  match dictGet l k with
  | some v => (v, l)
  | none => (d, l ++ [(k, d)])

/-- Python truthiness of an `Optional[str]`: `None` and the empty string are
falsy, every other string is truthy. -/
def pyTruthy : Option String → Bool
  | none => false
  | some s => s != ""

/-- Default TTL constant `TTL_SECONDS = 20` from `backend/ws/manager.py`. -/
def TTL_SECONDS : Nat := 20

/-- One live connection (`Client` dataclass): the underlying websocket is
modelled by a numeric identifier. -/
structure Client where
  ws : Nat
  device_id : String
  joined_at : Nat
  last_seen : Nat
deriving DecidableEq, Repr

/-- Per-room state (`RoomState` dataclass). -/
structure RoomState where
  connections : List (String × Client) := []
  recorder_role : Option String := none
  shooters : List String := []
  recorder_max : Nat := 1
  shooter_max : Nat := 4
  recorder_holder : Option String := none
  recorder_deadline : Option Nat := none
  photo_seq : Nat := 0
deriving DecidableEq, Repr

/-- The manager's room table `self._rooms : Dict[str, RoomState]`. -/
abbrev Manager := List (String × RoomState)

/-- Roster snapshot returned by `RoomManager.get_roster`. -/
structure Roster where
  recorder : Option String
  shooters : List String
  counts_recorder : Nat
  counts_shooter : Nat
deriving DecidableEq, Repr

/-- The room's state if present, otherwise a fresh default `RoomState`. -/
def roomOf (m : Manager) (room : String) : RoomState :=
  (dictGet m room).getD {}

/-- Current lease holder of a room (`rs.recorder_holder`). -/
def holderOf (m : Manager) (room : String) : Option String :=
  (roomOf m room).recorder_holder

/-- Current controller-role holder of a room (`rs.recorder_role`). -/
def roleOf (m : Manager) (room : String) : Option String :=
  (roomOf m room).recorder_role

/-- Whether the manager currently holds state for the room. -/
def hasRoom (m : Manager) (room : String) : Bool :=
  (dictGet m room).isSome

/-- Current value of the room's photo sequence counter (0 if the room is
absent, matching the counter a freshly created room would start from). -/
def seqNat (m : Manager) (room : String) : Nat :=
  (roomOf m room).photo_seq

/-- `RoomManager.add`: registers a connection, superseding (and closing) any
previous connection of the same device.  Returns the closed websocket, if
any, alongside the new table. -/
def add (m : Manager) (room dev : String) (ws now : Nat) : Manager × Option Nat :=
  let p := dictSetdefault m room {}
  let rs := p.1
  let closed := (dictGet rs.connections dev).map (fun c => c.ws)
  let rs' := { rs with connections := dictSet rs.connections dev ⟨ws, dev, now, now⟩ }
  (dictSet p.2 room rs', closed)

/-- `RoomManager.remove`: drops the device's connection, clears its role and
shooter membership, releases its lease, and discards the whole room when no
connection remains. -/
def remove (m : Manager) (room dev : String) : Manager :=
  match dictGet m room with
  | none => m
  | some rs =>
    let rs1 := { rs with connections := dictErase rs.connections dev }
    let rs2 := if rs1.recorder_role = some dev then { rs1 with recorder_role := none } else rs1
    let rs3 := { rs2 with shooters := rs2.shooters.filter (fun s => s != dev) }
    let rs4 :=
      if rs3.recorder_holder = some dev then
        { rs3 with recorder_holder := none, recorder_deadline := none }
      else rs3
    if rs4.connections.isEmpty then dictErase m room else dictSet m room rs4

/-- `RoomManager.touch`: refreshes the connection's last-seen instant. -/
def touch (m : Manager) (room dev : String) (now : Nat) : Manager :=
  match dictGet m room with
  | none => m
  | some rs =>
    match dictGet rs.connections dev with
    | none => m
    | some c =>
      dictSet m room
        { rs with connections := dictSet rs.connections dev { c with last_seen := now } }

/-- `RoomManager.join_role`: role arbitration.  Returns
`((ok, reason, (recorder_max, shooter_max)), table)`. -/
def join_role (m : Manager) (room dev role : String) :
    (Bool × Option String × Nat × Nat) × Manager :=
  let p := dictSetdefault m room {}
  let rs := p.1
  let m₀ := p.2
  let limits := (rs.recorder_max, rs.shooter_max)
  if role ≠ "recorder" ∧ role ≠ "shooter" then ((false, some "invalid_role", limits), m₀)
  else if role = "recorder" then
    if rs.recorder_role = some dev then ((true, none, limits), m₀)
    else if pyTruthy rs.recorder_role then ((false, some "recorder_full", limits), m₀)
    else ((true, none, limits), dictSet m₀ room { rs with recorder_role := some dev })
  else
    if rs.shooters.contains dev then ((true, none, limits), m₀)
    else if rs.shooters.length ≥ rs.shooter_max then ((false, some "shooter_full", limits), m₀)
    else ((true, none, limits), dictSet m₀ room { rs with shooters := rs.shooters ++ [dev] })

/-- Lexicographic code-point comparison of character lists, the order
Python string comparison uses. -/
def charListLe : List Char → List Char → Bool
  | [], _ => true
  | _ :: _, [] => false
  | a :: as, b :: bs =>
    if a.toNat < b.toNat then true
    else if b.toNat < a.toNat then false
    else charListLe as bs

/-- Python string comparison, total lexicographic order by code point. -/
def strLe (a b : String) : Bool :=
  charListLe a.data b.data

/-- The roster returned for an unknown room. -/
def emptyRoster : Roster :=
  { recorder := none, shooters := [], counts_recorder := 0, counts_shooter := 0 }

/-- `RoomManager.get_roster`: read-only snapshot.  `recorder` is the lease
holder, `counts_recorder` reflects whether the controller role is held. -/
def get_roster (m : Manager) (room : String) : Roster :=
  match dictGet m room with
  | none => emptyRoster
  | some rs =>
    { recorder := rs.recorder_holder,
      shooters := List.insertionSort (fun a b => strLe a b = true) rs.shooters,
      counts_recorder := if pyTruthy rs.recorder_role then 1 else 0,
      counts_shooter := rs.shooters.length }

/-- `RoomManager.next_seq`: bump and return the room's photo counter. -/
def next_seq (m : Manager) (room : String) : Nat × Manager :=
  let p := dictSetdefault m room {}
  let rs' := { p.1 with photo_seq := p.1.photo_seq + 1 }
  (rs'.photo_seq, dictSet p.2 room rs')

/-- `RoomManager.recorder_acquire`: lease acquisition with the idempotent
renewal, free acquisition and denial branches of the source. -/
def recorder_acquire (m : Manager) (room dev : String) (ttl now : Nat) :
    (Bool × Option String × Option Nat) × Manager :=
  let p := dictSetdefault m room {}
  let rs := p.1
  let m₀ := p.2
  if rs.recorder_holder = some dev then
    ((true, none, some (now + ttl)),
     dictSet m₀ room { rs with recorder_deadline := some (now + ttl) })
  else if pyTruthy rs.recorder_holder = false then
    ((true, none, some (now + ttl)),
     dictSet m₀ room
       { rs with recorder_holder := some dev, recorder_deadline := some (now + ttl) })
  else
    ((false, rs.recorder_holder, none), m₀)

/-- `RoomManager.recorder_heartbeat`: only the current holder extends the
deadline; everything else is ignored. -/
def recorder_heartbeat (m : Manager) (room dev : String) (ttl now : Nat) : Manager :=
  match dictGet m room with
  | none => m
  | some rs =>
    if rs.recorder_holder = some dev then
      dictSet m room { rs with recorder_deadline := some (now + ttl) }
    else m

/-- `RoomManager.recorder_release`: voluntary release by the holder. -/
def recorder_release (m : Manager) (room dev : String) : Bool × Manager :=
  match dictGet m room with
  | none => (false, m)
  | some rs =>
    if rs.recorder_holder = some dev then
      (true, dictSet m room { rs with recorder_holder := none, recorder_deadline := none })
    else (false, m)

/-- `RoomManager.is_recorder`: whether the device currently holds the lease. -/
def is_recorder (m : Manager) (room dev : String) : Bool :=
  match dictGet m room with
  | none => false
  | some rs => rs.recorder_holder = some dev

/-- One observable action of `RoomManager.broadcast_json`, in execution
order: a successful send, a failed send, or the removal the failure
triggers. -/
inductive BEv where
  | sent (dev : String)
  | sendFailed (dev : String)
  | removed (dev : String)
deriving DecidableEq, Repr

/-- Result of a broadcast: the count of successful sends, the mutated room
table, and the ordered action trace. -/
structure BroadcastResult where
  sentCount : Nat
  mgr : Manager
  events : List BEv
deriving DecidableEq, Repr

/-- Python guard `if exclude_device_id and cli.device_id == exclude_device_id`. -/
def excludedBy (exclude : Option String) (dev : String) : Bool :=
  pyTruthy exclude && (exclude == some dev)

/-- Send loop of `RoomManager.broadcast_json` over the snapshot of targets:
a send whose websocket is in `fails` raises, the connection is closed and
`remove` runs immediately, inside the loop, before the remaining targets. -/
def broadcastGo (room : String) (fails : List Nat) (exclude : Option String) :
    List Client → Manager → Nat → List BEv → BroadcastResult
  | [], m, sent, evs => ⟨sent, m, evs⟩
  | cli :: rest, m, sent, evs =>
    if excludedBy exclude cli.device_id then
      broadcastGo room fails exclude rest m sent evs
    else if fails.contains cli.ws then
      broadcastGo room fails exclude rest (remove m room cli.device_id) sent
        (evs ++ [BEv.sendFailed cli.device_id, BEv.removed cli.device_id])
    else
      broadcastGo room fails exclude rest m (sent + 1) (evs ++ [BEv.sent cli.device_id])

/-- `RoomManager.broadcast_json`: snapshots the room's connections under the
lock, then performs the sends; `fails` lists the websockets whose send
raises. -/
def broadcast_json (m : Manager) (room : String) (fails : List Nat)
    (exclude : Option String) : BroadcastResult :=
  match dictGet m room with
  | none => ⟨0, m, []⟩
  | some rs => broadcastGo room fails exclude (rs.connections.map (fun p => p.2)) m 0 []

/-- Snapshot of a room's connections in insertion order, as the broadcast
loop sees it. -/
def snapshotTargets (m : Manager) (room : String) : List Client :=
  (roomOf m room).connections.map (fun p => p.2)

/-- Close code `status.WS_1008_POLICY_VIOLATION`. -/
def WS_1008_POLICY_VIOLATION : Nat := 1008

/-- Python `str.strip()`: drop leading and trailing whitespace. -/
def pyStrip (s : String) : String :=
  ⟨((s.data.dropWhile Char.isWhitespace).reverse.dropWhile Char.isWhitespace).reverse⟩

/-- Python `str.lower()` on the ASCII range. -/
def pyLower (s : String) : String :=
  ⟨s.data.map Char.toLower⟩

/-- Whether the first character list starts with the second one. -/
def listStarts : List Char → List Char → Bool
  | _, [] => true
  | [], _ :: _ => false
  | c :: cs, p :: ps => c == p && listStarts cs ps

/-- Python `str.startswith(pat)`. -/
def pyStartsWith (s pat : String) : Bool :=
  listStarts s.data pat.data

/-- Validation helper `_is_valid_room` of `backend/ws/router.py`, applied to
an already materialised string. -/
def py_is_valid_room_str (s : String) : Bool :=
  (s != "") && (pyStartsWith (pyLower (pyStrip s)) "acc:")

/-- Validation helper `_is_valid_room` on the raw optional query value. -/
def py_is_valid_room : Option String → Bool
  | none => false
  | some s => py_is_valid_room_str s

/-- Outcome of the connection phase of `room_ws`: messages pushed to the
client, close code if refused, the registered identifiers if accepted, and
the websocket closed by a same-device supersession. -/
structure ConnectResult where
  messages : List String
  closeCode : Option Nat
  registeredAs : Option (String × String)
  closedPrev : Option Nat
deriving DecidableEq, Repr

/-- Connection phase of `room_ws`: strip the parameters, send the hello
diagnostic, refuse with close code 1008 when the room key or device id is
invalid, otherwise register through `RoomManager.add`. -/
def room_ws_connect (m : Manager) (room device_id : Option String) (ws now : Nat) :
    ConnectResult × Manager :=
  let room_final := pyStrip (room.getD "")
  let device_final := pyStrip (device_id.getD "")
  if py_is_valid_room_str room_final = false || device_final == "" then
    (⟨["hello", "error invalid_params"], some WS_1008_POLICY_VIOLATION, none, none⟩, m)
  else
    let p := add m room_final device_final ws now
    (⟨["hello"], none, some (room_final, device_final), p.2⟩, p.1)

/-- HTTP endpoint `GET /ws/roster` (`ws_roster` in `backend/ws/router.py`):
an invalid or missing room key yields the empty roster; the room table is
never touched. -/
def ws_roster (m : Manager) (room : Option String) : Roster × Manager :=
  match room with
  | none => (emptyRoster, m)
  | some r =>
    if py_is_valid_room_str r = false then (emptyRoster, m)
    else (get_roster m r, m)

/-- Modelled from the spec: the room-key format the specification states,
the text acc: (case-insensitively) followed by a numeric id.  The source
router checks only the acc: paragraph of this; this definition exists to
compare the two. -/
def specRoomKeyFormat (s : String) : Bool :=
  let t := pyLower (pyStrip s)
  pyStartsWith t "acc:" && (t.data.drop 4).length > 0 && (t.data.drop 4).all (fun c => c.isDigit)

/-- Inbound message kinds dispatched by the `room_ws` receive loop. -/
inductive InMsg where
  | ping
  | join (role : String)
  | recorderAcquire
  | recorderHeartbeat
  | recorderRelease
  | takePhoto
  | photoUploaded
deriving DecidableEq, Repr

/-- Handler-local state of one `room_ws` task: the validated identifiers,
the `joined` flag and `my_role` variable, whether the server side of the
socket is still open, and whether the finally-block cleanup has run. -/
structure ConnState where
  cid : Nat
  room : String
  device : String
  joined : Bool := false
  my_role : Option String := none
  sockOpen : Bool := true
  cleanedUp : Bool := false
deriving DecidableEq, Repr

/-- Whole-system state: the shared manager table, the per-connection handler
states, the websockets that have been closed server-side, and a log of the
messages the handlers emitted. -/
structure Sys where
  mgr : Manager := []
  conns : List ConnState := []
  closedSockets : List Nat := []
  log : List String := []
deriving DecidableEq, Repr

/-- Update the handler state of one connection in place. -/
def setConn (l : List ConnState) (cid : Nat) (f : ConnState → ConnState) :
    List ConnState :=
  l.map (fun c => if c.cid = cid then f c else c)

/-- Mark the connection owning a websocket as closed server-side (the
supersession close performed inside `RoomManager.add`). -/
def markSocketClosed (l : List ConnState) (ws : Nat) : List ConnState :=
  setConn l ws (fun c => { c with sockOpen := false })

/-- One inbound message processed by the `room_ws` loop of a connection, at
the manager-call granularity of the source handler.  Broadcasts triggered by
the handlers carry no failing sockets here, so only their log is recorded. -/
def procMsg (s : Sys) (c : ConnState) (now : Nat) : InMsg → Sys
  | .ping =>
    { s with mgr := touch s.mgr c.room c.device now, log := s.log ++ ["pong"] }
  | .join role =>
    let p := join_role s.mgr c.room c.device role
    if p.1.1 then
      { s with
        mgr := p.2,
        conns := setConn s.conns c.cid (fun x => { x with joined := true, my_role := some role }),
        log := s.log ++ ["join_ok " ++ role, "roster_update"] }
    else
      { s with
        mgr := p.2,
        conns := setConn s.conns c.cid (fun x => { x with sockOpen := false }),
        closedSockets := s.closedSockets ++ [c.cid],
        log := s.log ++ ["join_denied"] }
  | .recorderAcquire =>
    if c.joined = false then s
    else if c.my_role ≠ some "recorder" then { s with log := s.log ++ ["recorder_denied"] }
    else
      let p := recorder_acquire s.mgr c.room c.device TTL_SECONDS now
      if p.1.1 then
        { s with mgr := p.2, log := s.log ++ ["recorder_granted", "roster_update"] }
      else
        { s with mgr := p.2, log := s.log ++ ["recorder_denied"] }
  | .recorderHeartbeat =>
    if c.joined = false then s
    else { s with mgr := recorder_heartbeat s.mgr c.room c.device TTL_SECONDS now }
  | .recorderRelease =>
    if c.joined = false then s
    else
      let p := recorder_release s.mgr c.room c.device
      if p.1 then
        { s with mgr := p.2, log := s.log ++ ["recorder_revoked released", "roster_update"] }
      else { s with mgr := p.2 }
  | .takePhoto =>
    if c.joined = false then s
    else
      let b := broadcast_json s.mgr c.room [] (some c.device)
      { s with mgr := b.mgr, log := s.log ++ ["take_photo"] }
  | .photoUploaded =>
    if c.joined = false then s
    else
      let p := next_seq s.mgr c.room
      let b := broadcast_json p.2 c.room [] none
      { s with mgr := b.mgr, log := s.log ++ ["photo_uploaded"] }

/-- Scheduler-visible events of the session protocol: a connection attempt,
the arrival of one inbound message on a live connection, and the
finally-block cleanup of a handler (which the scheduler may run at any time
after the client disconnects or the socket is superseded). -/
inductive Ev where
  | connect (cid : Nat) (room dev : Option String) (now : Nat)
  | msg (cid now : Nat) (im : InMsg)
  | cleanup (cid : Nat)
deriving DecidableEq, Repr

/-- One protocol step, mirroring `room_ws` of `backend/ws/router.py`. -/
def procEvent (s : Sys) : Ev → Sys
  | .connect cid room dev now =>
    let p := room_ws_connect s.mgr room dev cid now
    match p.1.registeredAs with
    | none => { s with mgr := p.2 }
    | some rd =>
      let s1 :=
        match p.1.closedPrev with
        | some w =>
          { s with conns := markSocketClosed s.conns w, closedSockets := s.closedSockets ++ [w] }
        | none => s
      { s1 with
        mgr := p.2,
        conns := s1.conns ++ [{ cid := cid, room := rd.1, device := rd.2 }] }
  | .msg cid now im =>
    match s.conns.find? (fun c => c.cid == cid) with
    | none => s
    | some c =>
      if c.sockOpen = false || c.cleanedUp then s else procMsg s c now im
  | .cleanup cid =>
    match s.conns.find? (fun c => c.cid == cid) with
    | none => s
    | some c =>
      if c.cleanedUp then s
      else
        let wasHolder := is_recorder s.mgr c.room c.device
        let m1 := remove s.mgr c.room c.device
        { s with
          mgr := m1,
          conns := setConn s.conns cid (fun x => { x with cleanedUp := true, sockOpen := false }),
          log := s.log ++
            (if py_is_valid_room (some c.room) then
              (if wasHolder then ["recorder_revoked disconnected"] else []) ++ ["roster_update"]
             else []) }

/-- Run a schedule of protocol events from a system state. -/
def runEvents (s : Sys) (evs : List Ev) : Sys :=
  evs.foldl procEvent s

/-- Manager-level operations, as invoked with the lock held; used to state
properties over arbitrary operation sequences. -/
inductive MOp where
  | addC (room dev : String) (ws now : Nat)
  | removeC (room dev : String)
  | touchC (room dev : String) (now : Nat)
  | joinRoleC (room dev role : String)
  | nextSeqC (room : String)
  | acquireC (room dev : String) (ttl now : Nat)
  | heartbeatC (room dev : String) (ttl now : Nat)
  | releaseC (room dev : String)
deriving DecidableEq, Repr

/-- State effect of one manager-level operation. -/
def applyMOp (m : Manager) : MOp → Manager
  | .addC room dev ws now => (add m room dev ws now).1
  | .removeC room dev => remove m room dev
  | .touchC room dev now => touch m room dev now
  | .joinRoleC room dev role => (join_role m room dev role).2
  | .nextSeqC room => (next_seq m room).2
  | .acquireC room dev ttl now => (recorder_acquire m room dev ttl now).2
  | .heartbeatC room dev ttl now => recorder_heartbeat m room dev ttl now
  | .releaseC room dev => (recorder_release m room dev).2

/-- Sequence numbers handed out for the given room along an operation
sequence, in order. -/
def seqOuts (m : Manager) (r : String) : List MOp → List Nat
  | [] => []
  | op :: ops =>
    let rest := seqOuts (applyMOp m op) r ops
    match op with
    | .nextSeqC r' => if r' = r then (next_seq m r').1 :: rest else rest
    | _ => rest

/-- Check that no operation of the sequence ever deletes the given room:
whenever the room exists before a step it still exists after it. -/
def keepsRoom (m : Manager) (r : String) : List MOp → Bool
  | [] => true
  | op :: ops =>
    (!hasRoom m r || hasRoom (applyMOp m op) r) && keepsRoom (applyMOp m op) r ops

/-- Room targeted by a manager-level operation. -/
def opRoom : MOp → String
  | .addC room _ _ _ => room
  | .removeC room _ => room
  | .touchC room _ _ => room
  | .joinRoleC room _ _ => room
  | .nextSeqC room => room
  | .acquireC room _ _ _ => room
  | .heartbeatC room _ _ _ => room
  | .releaseC room _ => room

/-- Number of live registry entries the room holds for a device. -/
def liveConnCount (s : Sys) (room dev : String) : Nat :=
  match dictGet s.mgr room with
  | none => 0
  | some rs => match dictGet rs.connections dev with
    | none => 0
    | some _ => 1

/-- Schedule for the supersession scenario of the spec: a second connection
of the same device registers, then the guaranteed finally-block cleanup of
the superseded first handler runs. -/
def c3Trace : List Ev :=
  [Ev.connect 1 (some "acc:1") (some "d1") 0,
   Ev.connect 2 (some "acc:1") (some "d1") 1,
   Ev.cleanup 1]

/-- Realisable schedule in which the superseded first handler's deferred
cleanup runs only after the superseding connection has joined as recorder
and acquired the lease (the close handshake of the first socket, and hence
the delivery of its disconnect event, awaits the remote peer): the cleanup
then wipes the role, lease and room, and the still-joined second handler
re-acquires the lease in a room without any controller-role holder. -/
def c1Trace : List Ev :=
  [Ev.connect 1 (some "acc:1") (some "d1") 0,
   Ev.msg 1 0 (InMsg.join "recorder"),
   Ev.connect 2 (some "acc:1") (some "d1") 1,
   Ev.msg 2 1 (InMsg.join "recorder"),
   Ev.msg 2 1 InMsg.recorderAcquire,
   Ev.cleanup 1,
   Ev.msg 2 2 InMsg.recorderAcquire]

/-- Room table with two connected devices, used for the broadcast claims. -/
def c4Mgr : Manager :=
  [("acc:1",
    { connections := [("d1", ⟨1, "d1", 0, 0⟩), ("d2", ⟨2, "d2", 0, 0⟩)] })]

/-- Attempt (send) events versus removal events of a broadcast trace. -/
def isAttempt : BEv → Bool
  | .sent _ => true
  | .sendFailed _ => true
  | .removed _ => false

/-- Whether some send is still attempted after a removal has already been
performed during the same broadcast. -/
def attemptAfterRemoval : List BEv → Bool
  | [] => false
  | BEv.removed _ :: rest => rest.any isAttempt || attemptAfterRemoval rest
  | _ :: rest => attemptAfterRemoval rest

/-- Per-target expansion of a broadcast trace: each non-excluded target is
attempted, in snapshot order, and a failing target's removal follows its own
failed send immediately. -/
def broadcastEventsSpec (fails : List Nat) (exclude : Option String) :
    List Client → List BEv
  | [] => []
  | cli :: rest =>
    (if excludedBy exclude cli.device_id then []
     else if fails.contains cli.ws then
       [BEv.sendFailed cli.device_id, BEv.removed cli.device_id]
     else [BEv.sent cli.device_id]) ++ broadcastEventsSpec fails exclude rest

/-- Operation sequence in which the only device leaves the room (discarding
the room state) between two photo events. -/
def c6Ops : List MOp :=
  [MOp.addC "acc:1" "d1" 1 0,
   MOp.nextSeqC "acc:1",
   MOp.removeC "acc:1" "d1",
   MOp.addC "acc:1" "d1" 2 1,
   MOp.nextSeqC "acc:1"]

/-- Operation sequence witnessing monotone sequence numbers while the room
persists. -/
def c6WitnessOps : List MOp :=
  [MOp.addC "acc:1" "d1" 1 0, MOp.nextSeqC "acc:1", MOp.nextSeqC "acc:1"]

/-- Room in which device d1 holds the controller role but nobody holds the
lease. -/
def c9M1 : Manager :=
  [("acc:1",
    { connections := [("d1", ⟨1, "d1", 0, 0⟩)], recorder_role := some "d1" })]

/-- Room in which device d2 holds the controller role but nobody holds the
lease; its roster is identical to the one of `c9M1`. -/
def c9M2 : Manager :=
  [("acc:1",
    { connections := [("d1", ⟨1, "d1", 0, 0⟩), ("d2", ⟨2, "d2", 0, 0⟩)],
      recorder_role := some "d2" })]

/-- Room state in which d1 is connected and owns both role and lease. -/
def c2Rs : RoomState :=
  { connections := [("d1", ⟨1, "d1", 0, 0⟩)],
    recorder_role := some "d1", recorder_holder := some "d1",
    recorder_deadline := some 50 }

/-- Room whose lease is held by d1. -/
def c2M : Manager := [("acc:1", c2Rs)]

/-- Room state with a controller-role holder and two shooters in
non-sorted insertion order. -/
def c9Rs3 : RoomState :=
  { connections := [("a", ⟨1, "a", 0, 0⟩)],
    recorder_role := some "a", shooters := ["b", "a"] }

/-- Room used to witness the amended roster description. -/
def c9M3 : Manager := [("acc:1", c9Rs3)]

/-- Room holding a single connected device that also owns role, shooter
membership and lease. -/
def c7M : Manager :=
  [("acc:1",
    { connections := [("d1", ⟨1, "d1", 0, 0⟩)],
      recorder_role := some "d1", shooters := ["d1"],
      recorder_holder := some "d1", recorder_deadline := some 50 })]

/-- The room state stored in `c7M`. -/
def c7Rs : RoomState :=
  { connections := [("d1", ⟨1, "d1", 0, 0⟩)],
    recorder_role := some "d1", shooters := ["d1"],
    recorder_holder := some "d1", recorder_deadline := some 50 }

theorem dictGet_set_self {α : Type} (l : List (String × α)) (k : String) (v : α) :
    dictGet (dictSet l k v) k = some v := by
  induction l with
  | nil => simp [dictSet, dictGet]
  | cons hd tl ih =>
    obtain ⟨k', v'⟩ := hd
    by_cases h : k' = k
    · simp [dictSet, dictGet, h]
    · simp [dictSet, dictGet, h, ih]

theorem dictGet_set_ne {α : Type} (l : List (String × α)) {k k' : String} (v : α)
    (h : k ≠ k') : dictGet (dictSet l k v) k' = dictGet l k' := by
  induction l with
  | nil => simp [dictSet, dictGet, h]
  | cons hd tl ih =>
    obtain ⟨k'', v''⟩ := hd
    by_cases h2 : k'' = k
    · subst h2
      simp [dictSet, dictGet, h, Ne.symm h]
    · by_cases h3 : k'' = k'
      · simp [dictSet, dictGet, h2, h3, Ne.symm h]
      · simp [dictSet, dictGet, h2, h3, ih]

theorem dictGet_erase_self {α : Type} (l : List (String × α)) (k : String) :
    dictGet (dictErase l k) k = none := by
  induction l with
  | nil => simp [dictErase, dictGet]
  | cons hd tl ih =>
    obtain ⟨k', v'⟩ := hd
    by_cases h : k' = k
    · simp [dictErase, h, ih]
    · simp [dictErase, dictGet, h, ih]

theorem dictGet_erase_ne {α : Type} (l : List (String × α)) {k k' : String}
    (h : k ≠ k') : dictGet (dictErase l k) k' = dictGet l k' := by
  induction l with
  | nil => simp [dictErase]
  | cons hd tl ih =>
    obtain ⟨k'', v''⟩ := hd
    by_cases h2 : k'' = k
    · subst h2
      simp [dictErase, dictGet, h, Ne.symm h, ih]
    · simp [dictErase, dictGet, h2, ih]

theorem dictGet_append_some {α : Type} {l t : List (String × α)} {k : String} {v : α}
    (h : dictGet l k = some v) : dictGet (l ++ t) k = some v := by
  induction l with
  | nil => simp [dictGet] at h
  | cons hd tl ih =>
    obtain ⟨k', v'⟩ := hd
    by_cases h2 : k' = k
    · simp [dictGet, h2] at h ⊢
      exact h
    · simp [dictGet, h2] at h ⊢
      exact ih h

theorem dictGet_append_none {α : Type} {l : List (String × α)} {k : String}
    (t : List (String × α)) (h : dictGet l k = none) :
    dictGet (l ++ t) k = dictGet t k := by
  induction l with
  | nil => simp
  | cons hd tl ih =>
    obtain ⟨k', v'⟩ := hd
    by_cases h2 : k' = k
    · simp [dictGet, h2] at h
    · simp [dictGet, h2] at h ⊢
      exact ih h

theorem dictSet_absent {α : Type} {l : List (String × α)} {k : String} (v : α)
    (h : dictGet l k = none) : dictSet l k v = l ++ [(k, v)] := by
  induction l with
  | nil => simp [dictSet]
  | cons hd tl ih =>
    obtain ⟨k', v'⟩ := hd
    by_cases h2 : k' = k
    · simp [dictGet, h2] at h
    · simp [dictGet, h2] at h
      simp [dictSet, h2, ih h]

theorem dictErase_of_get_none {α : Type} {l : List (String × α)} {k : String}
    (h : dictGet l k = none) : dictErase l k = l := by
  induction l with
  | nil => simp [dictErase]
  | cons hd tl ih =>
    obtain ⟨k', v'⟩ := hd
    by_cases h2 : k' = k
    · simp [dictGet, h2] at h
    · simp [dictGet, h2] at h
      simp [dictErase, h2, ih h]

theorem dictGet_none_of_forall {α : Type} {l : List (String × α)} {k : String}
    (h : ∀ v : α, (k, v) ∉ l) : dictGet l k = none := by
  induction l with
  | nil => simp [dictGet]
  | cons hd tl ih =>
    obtain ⟨k', v'⟩ := hd
    have hne : ¬ k' = k := by
      intro e
      exact h v' (by simp [e])
    simp [dictGet, hne]
    exact ih (fun v hv => h v (List.mem_cons_of_mem _ hv))

theorem dictGet_none_of_not_mem_keys {α : Type} {l : List (String × α)} {k : String}
    (h : k ∉ l.map Prod.fst) : dictGet l k = none :=
  dictGet_none_of_forall (fun _ hv => h (List.mem_map_of_mem Prod.fst hv))

theorem dictErase_length {α : Type} {l : List (String × α)} {k : String} {v : α}
    (h : dictGet l k = some v) (hnd : (l.map Prod.fst).Nodup) :
    (dictErase l k).length + 1 = l.length := by
  induction l with
  | nil => simp [dictGet] at h
  | cons hd tl ih =>
    obtain ⟨k', v'⟩ := hd
    rw [List.map_cons, List.nodup_cons] at hnd
    by_cases h2 : k' = k
    · subst h2
      have hg : dictGet tl k' = none := dictGet_none_of_not_mem_keys hnd.1
      simp [dictErase, dictErase_of_get_none hg]
    · simp [dictGet, h2] at h
      simp [dictErase, h2, ih h hnd.2]

/-- Claim C1 evaluated on the code: along the realisable schedule
`c1Trace`, the manager reaches a room state whose lease is held by device
d1 while no device holds the controller role, contradicting the claimed
invariant that the lease holder is always the controller-role holder. -/
theorem C1_protocol_eval :
    roleOf (runEvents {} c1Trace).mgr "acc:1" = none ∧
    holderOf (runEvents {} c1Trace).mgr "acc:1" = some "d1" :=
  ⟨rfl, rfl⟩

/-- Claim C3 evaluated on the code: after two same-device registrations and
the guaranteed cleanup of the superseded first handler, the first socket
has been closed but the registry holds zero (not one) live connections for
the device — the cleanup removed the second connection's registry entry and
tore the whole room down. -/
theorem C3_supersede_eval :
    liveConnCount (runEvents {} c3Trace) "acc:1" "d1" = 0 ∧
    (runEvents {} c3Trace).closedSockets = [1] ∧
    dictGet (runEvents {} c3Trace).mgr "acc:1" = none :=
  ⟨rfl, rfl, rfl⟩

/-- Claim C4 counterexample: in a two-device room whose first send fails,
the failing connection is removed during the loop, before the second target
is attempted, so a send attempt still happens after a removal — the claimed
ordering (removals only after all snapshot targets were attempted) is false
on the code. -/
theorem C4_removal_order_counterexample :
    (broadcast_json c4Mgr "acc:1" [1] none).events
      = [BEv.sendFailed "d1", BEv.removed "d1", BEv.sent "d2"] ∧
    attemptAfterRemoval (broadcast_json c4Mgr "acc:1" [1] none).events = true :=
  ⟨rfl, rfl⟩

/-- Claim C5 counterexample: the room key acc:xyz does not have the
numeric-id format the claim requires, yet the connection is accepted and
registered — the router checks only the case-insensitive acc: beginning. -/
theorem C5_numeric_format_counterexample :
    specRoomKeyFormat "acc:xyz" = false ∧
    (room_ws_connect [] (some "acc:xyz") (some "d1") 1 0).1.registeredAs
      = some ("acc:xyz", "d1") ∧
    (room_ws_connect [] (some "acc:xyz") (some "d1") 1 0).1.closeCode = none :=
  ⟨rfl, rfl, rfl⟩

/-- Claim C6 counterexample: when the room's only device leaves between two
photo events, the room state (with its counter) is discarded, and the next
event is numbered 1 again — the sequence [1, 1] is neither strictly
increasing nor repeat-free. -/
theorem C6_seq_reset_counterexample :
    seqOuts [] "acc:1" c6Ops = [1, 1] ∧
    ¬ List.Chain' (fun a b => a < b) (seqOuts [] "acc:1" c6Ops) := by
  refine ⟨rfl, fun h => ?_⟩
  have h2 : List.Chain' (fun a b => a < b) [1, 1] := h
  exact absurd (List.chain'_cons.mp h2).1 (by omega)

/-- Claim C9 counterexample: two rooms whose controller-role holders differ
(d1 versus d2, neither holding the lease) produce identical rosters, so the
roster does not contain the controller-role holder as identifiable
information — only the lease holder's identity and a 0/1 role count. -/
theorem C9_roster_identity_counterexample :
    get_roster c9M1 "acc:1" = get_roster c9M2 "acc:1" ∧
    roleOf c9M1 "acc:1" = some "d1" ∧
    roleOf c9M2 "acc:1" = some "d2" :=
  ⟨rfl, rfl, rfl⟩

theorem dictSet_append_absent {α : Type} {l : List (String × α)} {k : String} (d v : α)
    (h : dictGet l k = none) : dictSet (l ++ [(k, d)]) k v = dictSet l k v := by
  induction l with
  | nil => simp [dictSet]
  | cons hd tl ih =>
    obtain ⟨k', v'⟩ := hd
    by_cases h2 : k' = k
    · simp [dictGet, h2] at h
    · simp [dictGet, h2] at h
      simp [dictSet, h2, ih h]

/-- Claim C2: lease acquisition is an idempotent renewal for the current
holder, a fresh grant when the lease is unheld (in the code's sense of a
falsy holder field), and otherwise a denial that returns the current holder
and leaves the table untouched. -/
theorem C2_acquire_spec (m : Manager) (room dev : String) (ttl now : Nat) :
    (holderOf m room = some dev →
      recorder_acquire m room dev ttl now
        = ((true, none, some (now + ttl)),
           dictSet m room { roomOf m room with recorder_deadline := some (now + ttl) })) ∧
    (pyTruthy (holderOf m room) = false →
      recorder_acquire m room dev ttl now
        = ((true, none, some (now + ttl)),
           dictSet m room
             { roomOf m room with
               recorder_holder := some dev,
               recorder_deadline := some (now + ttl) })) ∧
    (∀ h, holderOf m room = some h → h ≠ "" → h ≠ dev →
      recorder_acquire m room dev ttl now = ((false, some h, none), m)) := by
  refine ⟨?_, ?_, ?_⟩
  · intro h1
    cases hget : dictGet m room with
    | none =>
      rw [holderOf, roomOf, hget] at h1
      simp at h1
    | some rs =>
      rw [holderOf, roomOf, hget] at h1
      simp only [Option.getD_some] at h1
      simp [recorder_acquire, dictSetdefault, hget, h1, roomOf]
  · intro h1
    cases hget : dictGet m room with
    | none =>
      have habs : dictSet (m ++ [(room, ({} : RoomState))]) room
          { ({} : RoomState) with
            recorder_holder := some dev,
            recorder_deadline := some (now + ttl) }
          = dictSet m room
            { ({} : RoomState) with
              recorder_holder := some dev,
              recorder_deadline := some (now + ttl) } :=
        dictSet_append_absent _ _ hget
      simp [recorder_acquire, dictSetdefault, hget, roomOf, pyTruthy, habs]
    | some rs =>
      rw [holderOf, roomOf, hget] at h1
      simp only [Option.getD_some] at h1
      by_cases hdev : rs.recorder_holder = some dev
      · have hrs : { rs with
            recorder_holder := some dev,
            recorder_deadline := some (now + ttl) }
            = { rs with recorder_deadline := some (now + ttl) } := by
          cases rs
          simp_all
        simp [recorder_acquire, dictSetdefault, hget, hdev, roomOf, hrs]
      · simp [recorder_acquire, dictSetdefault, hget, hdev, h1, roomOf]
  · intro h h1 h2 h3
    cases hget : dictGet m room with
    | none =>
      rw [holderOf, roomOf, hget] at h1
      simp at h1
    | some rs =>
      rw [holderOf, roomOf, hget] at h1
      simp only [Option.getD_some] at h1
      have hdev : ¬ rs.recorder_holder = some dev := by
        rw [h1]
        simp
        exact fun e => h3 e
      have htruthy : pyTruthy rs.recorder_holder = true := by
        rw [h1]
        simp [pyTruthy]
        exact h2
      have hpt : pyTruthy (some h) = true := by
        rw [h1] at htruthy
        exact htruthy
      simp [recorder_acquire, dictSetdefault, hget, hdev, htruthy, h1, h3, hpt]

/-- Witness for C2: a denied acquisition by d2 while d1 holds the lease
returns the holder and leaves the table unchanged. -/
theorem C2_acquire_spec_witness :
    recorder_acquire c2M "acc:1" "d2" 20 100 = ((false, some "d1", none), c2M) :=
  (C2_acquire_spec c2M "acc:1" "d2" 20 100).2.2 "d1" rfl (by decide) (by decide)

/-- Claim C8: a heartbeat extends the deadline to now+ttl exactly when the
device is the current lease holder, changing nothing else, and is a total
no-op (no error, no state change, no resurrection) for any non-holder. -/
theorem C8_heartbeat_frame (m : Manager) (room dev : String) (ttl now : Nat) :
    (is_recorder m room dev = false → recorder_heartbeat m room dev ttl now = m) ∧
    (∀ rs, dictGet m room = some rs → rs.recorder_holder = some dev →
      recorder_heartbeat m room dev ttl now
        = dictSet m room { rs with recorder_deadline := some (now + ttl) }) := by
  constructor
  · intro h
    cases hget : dictGet m room with
    | none => simp [recorder_heartbeat, hget]
    | some rs =>
      simp only [is_recorder, hget, decide_eq_false_iff_not] at h
      simp [recorder_heartbeat, hget, h]
  · intro rs hget hold
    simp [recorder_heartbeat, hget, hold]

/-- Witness for C8: the holder d1 heartbeats at instant 100 with ttl 20 and
only the deadline moves to 120; a non-holder heartbeat leaves the table
untouched. -/
theorem C8_heartbeat_frame_witness :
    recorder_heartbeat c2M "acc:1" "d1" 20 100
      = dictSet c2M "acc:1" { c2Rs with recorder_deadline := some 120 } ∧
    recorder_heartbeat c2M "acc:1" "d2" 20 100 = c2M :=
  ⟨(C8_heartbeat_frame c2M "acc:1" "d1" 20 100).2 c2Rs rfl rfl,
   (C8_heartbeat_frame c2M "acc:1" "d2" 20 100).1 (by decide)⟩

/-- Claim C10: querying the roster of an absent room, or the HTTP roster
endpoint with a missing or invalid room key, yields the empty roster rather
than an error, and the room table is never touched. -/
theorem C10_empty_roster (m : Manager) (ro : Option String) :
    (py_is_valid_room ro = false → ws_roster m ro = (emptyRoster, m)) ∧
    (∀ r, ro = some r → dictGet m r = none → ws_roster m ro = (emptyRoster, m)) ∧
    (∀ r, dictGet m r = none → get_roster m r = emptyRoster) ∧
    (ws_roster m ro).2 = m := by
  refine ⟨?_, ?_, ?_, ?_⟩
  · intro h
    cases ro with
    | none => rfl
    | some r =>
      simp only [py_is_valid_room] at h
      simp [ws_roster, h]
  · intro r hro hget
    subst hro
    by_cases hv : py_is_valid_room_str r = false
    · simp [ws_roster, hv]
    · simp only [Bool.not_eq_false] at hv
      simp [ws_roster, hv, get_roster, hget]
  · intro r hget
    simp [get_roster, hget]
  · cases ro with
    | none => rfl
    | some r =>
      by_cases hv : py_is_valid_room_str r = false
      · simp [ws_roster, hv]
      · simp only [Bool.not_eq_false] at hv
        simp [ws_roster, hv]

/-- Witness for C10: an invalid key and a valid-but-unknown room both give
the empty roster without touching the table. -/
theorem C10_empty_roster_witness :
    ws_roster [] (some "bad") = (emptyRoster, []) ∧
    ws_roster c2M (some "acc:9") = (emptyRoster, c2M) :=
  ⟨(C10_empty_roster [] (some "bad")).1 rfl,
   (C10_empty_roster c2M (some "acc:9")).2.1 "acc:9" rfl rfl⟩

theorem contains_filter_ne_self (l : List String) (dev : String) :
    (l.filter (fun s => s != dev)).contains dev = false := by
  simp

theorem remove_char (m : Manager) (room dev : String) (rs : RoomState)
    (hget : dictGet m room = some rs) :
    remove m room dev
      = if (dictErase rs.connections dev).isEmpty then dictErase m room
        else dictSet m room
          { connections := dictErase rs.connections dev,
            recorder_role := if rs.recorder_role = some dev then none else rs.recorder_role,
            shooters := rs.shooters.filter (fun s => s != dev),
            recorder_max := rs.recorder_max,
            shooter_max := rs.shooter_max,
            recorder_holder := if rs.recorder_holder = some dev then none else rs.recorder_holder,
            recorder_deadline := if rs.recorder_holder = some dev then none else rs.recorder_deadline,
            photo_seq := rs.photo_seq } := by
  obtain ⟨conns, role, shooters, rmax, smax, holder, dl, seq⟩ := rs
  simp only [remove, hget]
  by_cases hrole : role = some dev <;> by_cases hhold : holder = some dev <;>
    simp [hrole, hhold]

/-- Claim C7: removing a device clears its connection entry, controller
role, shooter membership and lease in the one locked step, and removing the
last connection discards the whole room, shrinking the room table by one. -/
theorem C7_remove_teardown (m : Manager) (room dev : String) (rs : RoomState)
    (hget : dictGet m room = some rs) (hnd : (m.map Prod.fst).Nodup) :
    ((dictErase rs.connections dev).isEmpty = true →
      dictGet (remove m room dev) room = none ∧
      (remove m room dev).length + 1 = m.length) ∧
    (∀ rs', dictGet (remove m room dev) room = some rs' →
      rs'.recorder_role ≠ some dev ∧
      rs'.shooters.contains dev = false ∧
      rs'.recorder_holder ≠ some dev ∧
      dictGet rs'.connections dev = none ∧
      (rs.recorder_holder = some dev → rs'.recorder_deadline = none)) := by
  constructor
  · intro hempty
    rw [remove_char m room dev rs hget, if_pos hempty]
    exact ⟨dictGet_erase_self m room, dictErase_length hget hnd⟩
  · intro rs' hget'
    rw [remove_char m room dev rs hget] at hget'
    by_cases hempty : (dictErase rs.connections dev).isEmpty
    · rw [if_pos hempty, dictGet_erase_self] at hget'
      exact absurd hget' (by simp)
    · rw [if_neg hempty, dictGet_set_self] at hget'
      obtain rfl : rs' = _ := (Option.some_injective _ hget').symm
      refine ⟨?_, contains_filter_ne_self rs.shooters dev, ?_, dictGet_erase_self _ _, ?_⟩
      · by_cases hrole : rs.recorder_role = some dev
        · simp [hrole]
        · simp [hrole]
      · by_cases hhold : rs.recorder_holder = some dev
        · simp [hhold]
        · simp [hhold]
      · intro hhold
        simp [hhold]

/-- Witness for C7: removing the only connected device d1 discards the room
and restores the room count. -/
theorem C7_remove_teardown_witness :
    dictGet (remove c7M "acc:1" "d1") "acc:1" = none ∧
    (remove c7M "acc:1" "d1").length + 1 = c7M.length :=
  (C7_remove_teardown c7M "acc:1" "d1" c7Rs rfl (by decide)).1 rfl

theorem charListLe_cons_iff (a b : Char) (as bs : List Char) :
    charListLe (a :: as) (b :: bs) = true ↔
      a.toNat < b.toNat ∨ (a.toNat = b.toNat ∧ charListLe as bs = true) := by
  by_cases h1 : a.toNat < b.toNat
  · simp [charListLe, h1]
  · by_cases h2 : b.toNat < a.toNat
    · simp [charListLe, h1, h2]
      omega
    · have heq : a.toNat = b.toNat := by omega
      simp [charListLe, h1, h2, heq]

theorem charListLe_total : ∀ as bs : List Char,
    charListLe as bs = true ∨ charListLe bs as = true := by
  intro as
  induction as with
  | nil => intro bs; left; rfl
  | cons a as ih =>
    intro bs
    cases bs with
    | nil => right; rfl
    | cons b bs =>
      rcases Nat.lt_trichotomy a.toNat b.toNat with hlt | heq | hgt
      · left
        rw [charListLe_cons_iff]
        exact Or.inl hlt
      · rcases ih bs with h | h
        · left
          rw [charListLe_cons_iff]
          exact Or.inr ⟨heq, h⟩
        · right
          rw [charListLe_cons_iff]
          exact Or.inr ⟨heq.symm, h⟩
      · right
        rw [charListLe_cons_iff]
        exact Or.inl hgt

theorem charListLe_trans : ∀ as bs cs : List Char,
    charListLe as bs = true → charListLe bs cs = true → charListLe as cs = true := by
  intro as
  induction as with
  | nil => intro bs cs _ _; rfl
  | cons a as ih =>
    intro bs cs h1 h2
    cases bs with
    | nil => simp [charListLe] at h1
    | cons b bs =>
      cases cs with
      | nil => simp [charListLe] at h2
      | cons c cs =>
        rw [charListLe_cons_iff] at h1 h2 ⊢
        rcases h1 with h1 | ⟨h1e, h1r⟩
        · rcases h2 with h2 | ⟨h2e, h2r⟩
          · exact Or.inl (by omega)
          · exact Or.inl (by omega)
        · rcases h2 with h2 | ⟨h2e, h2r⟩
          · exact Or.inl (by omega)
          · exact Or.inr ⟨by omega, ih bs cs h1r h2r⟩

theorem strLe_total (a b : String) : strLe a b = true ∨ strLe b a = true :=
  charListLe_total a.data b.data

theorem strLe_trans (a b c : String) (h1 : strLe a b = true) (h2 : strLe b c = true) :
    strLe a c = true :=
  charListLe_trans a.data b.data c.data h1 h2

theorem sorted_insertionSort_strLe (l : List String) :
    List.Sorted (fun a b => strLe a b = true)
      (List.insertionSort (fun a b => strLe a b = true) l) :=
  @List.sorted_insertionSort String (fun a b => strLe a b = true) _
    ⟨strLe_total⟩ ⟨strLe_trans⟩ l

/-- Claim C9 amended: the roster exposes the lease holder by identity, the
presence of a controller-role holder only as the 0/1 count (so a role
holder without the lease is visible as a state, though not by identity),
the shooters in sorted order, and the shooter count. -/
theorem C9_roster_amended (m : Manager) (room : String) (rs : RoomState)
    (hget : dictGet m room = some rs) :
    get_roster m room
      = { recorder := rs.recorder_holder,
          shooters := List.insertionSort (fun a b => strLe a b = true) rs.shooters,
          counts_recorder := if pyTruthy rs.recorder_role then 1 else 0,
          counts_shooter := rs.shooters.length } ∧
    List.Sorted (fun a b => strLe a b = true) (get_roster m room).shooters ∧
    List.Perm (get_roster m room).shooters rs.shooters ∧
    (pyTruthy rs.recorder_role = true → rs.recorder_holder = none →
      (get_roster m room).counts_recorder = 1 ∧ (get_roster m room).recorder = none) := by
  have h1 : get_roster m room
      = { recorder := rs.recorder_holder,
          shooters := List.insertionSort (fun a b => strLe a b = true) rs.shooters,
          counts_recorder := if pyTruthy rs.recorder_role then 1 else 0,
          counts_shooter := rs.shooters.length } := by
    simp [get_roster, hget]
  refine ⟨h1, ?_, ?_, ?_⟩
  · rw [h1]
    exact sorted_insertionSort_strLe rs.shooters
  · rw [h1]
    exact List.perm_insertionSort (fun a b => strLe a b = true) rs.shooters
  · intro hrole hhold
    rw [h1]
    simp [hrole, hhold]

/-- Witness for C9 amended: the roster of `c9M3` lists its two shooters in
sorted order, counts the role holder, and shows no lease holder. -/
theorem C9_roster_amended_witness :
    List.Sorted (fun a b => strLe a b = true) (get_roster c9M3 "acc:1").shooters ∧
    List.Perm (get_roster c9M3 "acc:1").shooters c9Rs3.shooters ∧
    (get_roster c9M3 "acc:1").counts_recorder = 1 ∧
    (get_roster c9M3 "acc:1").recorder = none := by
  have h := C9_roster_amended c9M3 "acc:1" c9Rs3 rfl
  exact ⟨h.2.1, h.2.2.1, (h.2.2.2 rfl rfl).1, (h.2.2.2 rfl rfl).2⟩

/-- Claim C5 amended: the router requires only that the trimmed room key
start (case-insensitively) with acc: and that the trimmed device id be
non-empty; on failure the connection is refused with close code 1008 after
the hello and error diagnostics and nothing is registered or mutated, and
on success the connection is registered in the room under the trimmed
identifiers. -/
theorem C5_validation_amended (m : Manager) (room dev : Option String) (ws now : Nat) :
    (py_is_valid_room_str (pyStrip (room.getD "")) = false ∨ pyStrip (dev.getD "") = "" →
      room_ws_connect m room dev ws now
        = (⟨["hello", "error invalid_params"], some WS_1008_POLICY_VIOLATION, none, none⟩, m)) ∧
    (py_is_valid_room_str (pyStrip (room.getD "")) = true →
      pyStrip (dev.getD "") ≠ "" →
      (room_ws_connect m room dev ws now).1.registeredAs
          = some (pyStrip (room.getD ""), pyStrip (dev.getD "")) ∧
      (room_ws_connect m room dev ws now).1.closeCode = none ∧
      (dictGet (roomOf (room_ws_connect m room dev ws now).2 (pyStrip (room.getD ""))).connections
          (pyStrip (dev.getD ""))).isSome = true) := by
  constructor
  · intro h
    rcases h with h | h
    · simp [room_ws_connect, h]
    · simp [room_ws_connect, h]
  · intro hroom hdev
    have hdev2 : (pyStrip (dev.getD "") == "") = false := by
      simp [hdev]
    simp [room_ws_connect, hroom, hdev2, add, roomOf, dictGet_set_self]

/-- Witness for C5 amended: a non-acc: key is refused with 1008 and no
mutation, and acc:1 with device d1 registers. -/
theorem C5_validation_amended_witness :
    room_ws_connect [] (some "bad") (some "d1") 1 0
      = (⟨["hello", "error invalid_params"], some WS_1008_POLICY_VIOLATION, none, none⟩, []) ∧
    (room_ws_connect [] (some "acc:1") (some "d1") 1 0).1.registeredAs
      = some ("acc:1", "d1") :=
  ⟨(C5_validation_amended [] (some "bad") (some "d1") 1 0).1 (Or.inl rfl),
   ((C5_validation_amended [] (some "acc:1") (some "d1") 1 0).2 rfl (by decide)).1⟩

theorem broadcastGo_spec (room : String) (fails : List Nat) (exclude : Option String) :
    ∀ (l : List Client) (m : Manager) (sent : Nat) (evs : List BEv),
      (broadcastGo room fails exclude l m sent evs).events
          = evs ++ broadcastEventsSpec fails exclude l ∧
      (broadcastGo room fails exclude l m sent evs).sentCount
          = sent + (l.filter
              (fun cli => !excludedBy exclude cli.device_id && !fails.contains cli.ws)).length := by
  intro l
  induction l with
  | nil => intro m sent evs; simp [broadcastGo, broadcastEventsSpec]
  | cons cli rest ih =>
    intro m sent evs
    by_cases hex : excludedBy exclude cli.device_id = true
    · have hp : (!excludedBy exclude cli.device_id && !fails.contains cli.ws) = false := by
        rw [hex]
        rfl
      constructor
      · simp only [broadcastGo, hex, if_true, broadcastEventsSpec]
        rw [(ih _ _ _).1]
        simp [hex]
      · simp only [broadcastGo, hex, if_true, List.filter_cons, hp]
        rw [(ih _ _ _).2]
        simp
    · by_cases hfail : cli.ws ∈ fails
      · have hfb : fails.contains cli.ws = true := by
          simpa using hfail
        have hp : (!excludedBy exclude cli.device_id && !fails.contains cli.ws) = false := by
          rw [hfb]
          simp
        constructor
        · simp only [broadcastGo, hex, hfb, if_true, if_false, Bool.false_eq_true, if_neg,
            not_false_eq_true, broadcastEventsSpec]
          rw [(ih _ _ _).1, List.append_assoc]
        · simp only [broadcastGo, hex, hfb, if_true, Bool.false_eq_true, if_neg,
            not_false_eq_true, List.filter_cons, hp]
          rw [(ih _ _ _).2]
          simp
      · have hfb : fails.contains cli.ws = false := by
          simpa using hfail
        have hp : (!excludedBy exclude cli.device_id && !fails.contains cli.ws) = true := by
          rw [hfb]
          simp
          simpa using hex
        constructor
        · simp only [broadcastGo, hex, hfb, Bool.false_eq_true, if_neg, not_false_eq_true,
            broadcastEventsSpec]
          rw [(ih _ _ _).1, List.append_assoc]
        · simp only [broadcastGo, hex, hfb, Bool.false_eq_true, if_neg, not_false_eq_true,
            List.filter_cons, hp]
          rw [(ih _ _ _).2]
          simp
          omega

theorem mem_broadcastEventsSpec (fails : List Nat) (exclude : Option String) :
    ∀ (l : List Client) (cli : Client), cli ∈ l → excludedBy exclude cli.device_id = false →
      BEv.sent cli.device_id ∈ broadcastEventsSpec fails exclude l ∨
      BEv.sendFailed cli.device_id ∈ broadcastEventsSpec fails exclude l := by
  intro l
  induction l with
  | nil => intro cli h; simp at h
  | cons hd rest ih =>
    intro cli hmem hex
    rcases List.mem_cons.mp hmem with rfl | hmem
    · by_cases hfail : cli.ws ∈ fails
      · right
        simp [broadcastEventsSpec, hex, hfail]
      · left
        simp [broadcastEventsSpec, hex, hfail]
    · rcases ih cli hmem hex with h | h
      · left
        simp [broadcastEventsSpec, h]
      · right
        simp [broadcastEventsSpec, h]

/-- Claim C4 amended: the broadcast walks the pre-lock snapshot of targets
in order; a failing target's removal runs immediately, inside the loop,
right after its own failed send and before the remaining targets are
attempted, but every non-excluded target is still attempted regardless of
other targets' failures, and the returned count is the number of successful
sends. -/
theorem C4_broadcast_events (m : Manager) (room : String) (fails : List Nat)
    (exclude : Option String) :
    (broadcast_json m room fails exclude).events
        = broadcastEventsSpec fails exclude (snapshotTargets m room) ∧
    (broadcast_json m room fails exclude).sentCount
        = ((snapshotTargets m room).filter
            (fun cli => !excludedBy exclude cli.device_id && !fails.contains cli.ws)).length ∧
    (∀ cli, cli ∈ snapshotTargets m room → excludedBy exclude cli.device_id = false →
      BEv.sent cli.device_id ∈ (broadcast_json m room fails exclude).events ∨
      BEv.sendFailed cli.device_id ∈ (broadcast_json m room fails exclude).events) := by
  have hmain : (broadcast_json m room fails exclude).events
        = broadcastEventsSpec fails exclude (snapshotTargets m room) ∧
      (broadcast_json m room fails exclude).sentCount
        = ((snapshotTargets m room).filter
            (fun cli => !excludedBy exclude cli.device_id && !fails.contains cli.ws)).length := by
    cases hget : dictGet m room with
    | none =>
      simp [broadcast_json, hget, snapshotTargets, roomOf, broadcastEventsSpec]
    | some rs =>
      have h := broadcastGo_spec room fails exclude (rs.connections.map (fun p => p.2)) m 0 []
      simp only [broadcast_json, hget, snapshotTargets, roomOf, Option.getD_some]
      exact ⟨by rw [h.1]; simp, by rw [h.2]; simp⟩
  refine ⟨hmain.1, hmain.2, ?_⟩
  intro cli hmem hex
  rw [hmain.1]
  exact mem_broadcastEventsSpec fails exclude (snapshotTargets m room) cli hmem hex

/-- Witness for C4 amended: in the two-device room with the first send
failing, the second device is still attempted (and succeeds). -/
theorem C4_broadcast_events_witness :
    BEv.sent "d2" ∈ (broadcast_json c4Mgr "acc:1" [1] none).events ∨
    BEv.sendFailed "d2" ∈ (broadcast_json c4Mgr "acc:1" [1] none).events :=
  (C4_broadcast_events c4Mgr "acc:1" [1] none).2.2 ⟨2, "d2", 0, 0⟩ (by decide) rfl


theorem dictGet_append_single_ne {α : Type} (l : List (String × α)) {k k' : String}
    (d : α) (h : k ≠ k') : dictGet (l ++ [(k, d)]) k' = dictGet l k' := by
  cases hget : dictGet l k' with
  | some v => exact dictGet_append_some hget
  | none =>
    rw [dictGet_append_none _ hget]
    simp [dictGet, h]

theorem applyMOp_frame (op : MOp) (m : Manager) (r : String) (h : opRoom op ≠ r) :
    dictGet (applyMOp m op) r = dictGet m r := by
  cases op with
  | addC room dev ws now =>
    simp only [opRoom] at h
    cases hget : dictGet m room with
    | none =>
      simp [applyMOp, add, dictSetdefault, hget, dictGet_set_ne, dictGet_append_single_ne, h]
    | some rs =>
      simp [applyMOp, add, dictSetdefault, hget, dictGet_set_ne, h]
  | removeC room dev =>
    simp only [opRoom] at h
    cases hget : dictGet m room with
    | none => simp [applyMOp, remove, hget]
    | some rs =>
      simp only [applyMOp, remove, hget]
      split_ifs <;>
        simp [dictGet_erase_ne, dictGet_set_ne, h]
  | touchC room dev now =>
    simp only [opRoom] at h
    cases hget : dictGet m room with
    | none => simp [applyMOp, touch, hget]
    | some rs =>
      cases hc : dictGet rs.connections dev with
      | none => simp [applyMOp, touch, hget, hc]
      | some c => simp [applyMOp, touch, hget, hc, dictGet_set_ne, h]
  | joinRoleC room dev role =>
    simp only [opRoom] at h
    cases hget : dictGet m room with
    | none =>
      simp only [applyMOp, join_role, dictSetdefault, hget]
      split_ifs <;>
        simp [dictGet_set_ne, dictGet_append_single_ne, h]
    | some rs =>
      simp only [applyMOp, join_role, dictSetdefault, hget]
      split_ifs <;>
        simp [dictGet_set_ne, h]
  | nextSeqC room =>
    simp only [opRoom] at h
    cases hget : dictGet m room with
    | none =>
      simp [applyMOp, next_seq, dictSetdefault, hget, dictGet_set_ne, dictGet_append_single_ne, h]
    | some rs =>
      simp [applyMOp, next_seq, dictSetdefault, hget, dictGet_set_ne, h]
  | acquireC room dev ttl now =>
    simp only [opRoom] at h
    cases hget : dictGet m room with
    | none =>
      simp only [applyMOp, recorder_acquire, dictSetdefault, hget]
      split_ifs <;>
        simp [dictGet_set_ne, dictGet_append_single_ne, h]
    | some rs =>
      simp only [applyMOp, recorder_acquire, dictSetdefault, hget]
      split_ifs <;>
        simp [dictGet_set_ne, h]
  | heartbeatC room dev ttl now =>
    simp only [opRoom] at h
    cases hget : dictGet m room with
    | none => simp [applyMOp, recorder_heartbeat, hget]
    | some rs =>
      simp only [applyMOp, recorder_heartbeat, hget]
      split_ifs <;>
        simp [dictGet_set_ne, h]
  | releaseC room dev =>
    simp only [opRoom] at h
    cases hget : dictGet m room with
    | none => simp [applyMOp, recorder_release, hget]
    | some rs =>
      simp only [applyMOp, recorder_release, hget]
      split_ifs <;>
        simp [dictGet_set_ne, h]

theorem applyMOp_seq_same (op : MOp) (m : Manager) (rs rs1 : RoomState)
    (hget : dictGet m (opRoom op) = some rs)
    (hget1 : dictGet (applyMOp m op) (opRoom op) = some rs1) :
    rs.photo_seq ≤ rs1.photo_seq := by
  cases op with
  | addC room dev ws now =>
    simp only [opRoom] at hget hget1
    simp only [applyMOp, add, dictSetdefault, hget] at hget1
    rw [dictGet_set_self] at hget1
    rw [← Option.some.inj hget1]
  | removeC room dev =>
    simp only [opRoom] at hget hget1
    simp only [applyMOp] at hget1
    rw [remove_char m room dev rs hget] at hget1
    split_ifs at hget1 <;>
      first
        | (rw [dictGet_erase_self] at hget1
           exact absurd hget1 (by simp))
        | (rw [dictGet_set_self] at hget1
           rw [← Option.some.inj hget1])
  | touchC room dev now =>
    simp only [opRoom] at hget hget1
    simp only [applyMOp, touch, hget] at hget1
    cases hc : dictGet rs.connections dev with
    | none =>
      simp only [hc] at hget1
      rw [hget] at hget1
      rw [← Option.some.inj hget1]
    | some c =>
      simp only [hc] at hget1
      rw [dictGet_set_self] at hget1
      rw [← Option.some.inj hget1]
  | joinRoleC room dev role =>
    simp only [opRoom] at hget hget1
    simp only [applyMOp, join_role, dictSetdefault, hget] at hget1
    split_ifs at hget1 <;>
      first
        | (rw [hget] at hget1
           rw [← Option.some.inj hget1])
        | (rw [dictGet_set_self] at hget1
           rw [← Option.some.inj hget1])
  | nextSeqC room =>
    simp only [opRoom] at hget hget1
    simp only [applyMOp, next_seq, dictSetdefault, hget] at hget1
    rw [dictGet_set_self] at hget1
    rw [← Option.some.inj hget1]
    simp
  | acquireC room dev ttl now =>
    simp only [opRoom] at hget hget1
    simp only [applyMOp, recorder_acquire, dictSetdefault, hget] at hget1
    split_ifs at hget1 <;>
      first
        | (rw [hget] at hget1
           rw [← Option.some.inj hget1])
        | (rw [dictGet_set_self] at hget1
           rw [← Option.some.inj hget1])
  | heartbeatC room dev ttl now =>
    simp only [opRoom] at hget hget1
    simp only [applyMOp, recorder_heartbeat, hget] at hget1
    split_ifs at hget1 <;>
      first
        | (rw [hget] at hget1
           rw [← Option.some.inj hget1])
        | (rw [dictGet_set_self] at hget1
           rw [← Option.some.inj hget1])
  | releaseC room dev =>
    simp only [opRoom] at hget hget1
    simp only [applyMOp, recorder_release, hget] at hget1
    split_ifs at hget1 <;>
      first
        | (rw [hget] at hget1
           rw [← Option.some.inj hget1])
        | (rw [dictGet_set_self] at hget1
           rw [← Option.some.inj hget1])

theorem next_seq_spec (m : Manager) (r : String) :
    (next_seq m r).1 = seqNat m r + 1 ∧
    dictGet (next_seq m r).2 r = some { roomOf m r with photo_seq := seqNat m r + 1 } := by
  cases hget : dictGet m r with
  | none =>
    constructor
    · simp [next_seq, dictSetdefault, hget, seqNat, roomOf]
    · simp only [next_seq, dictSetdefault, hget, seqNat, roomOf]
      rw [dictGet_set_self]
      simp
  | some rs =>
    constructor
    · simp [next_seq, dictSetdefault, hget, seqNat, roomOf]
    · simp only [next_seq, dictSetdefault, hget, seqNat, roomOf]
      rw [dictGet_set_self]
      simp

theorem applyMOp_seq_mono (op : MOp) (m : Manager) (r : String) (rs rs1 : RoomState)
    (hget : dictGet m r = some rs) (hget1 : dictGet (applyMOp m op) r = some rs1) :
    rs.photo_seq ≤ rs1.photo_seq := by
  by_cases hr : opRoom op = r
  · subst hr
    exact applyMOp_seq_same op m rs rs1 hget hget1
  · rw [applyMOp_frame op m r hr, hget] at hget1
    rw [← Option.some.inj hget1]

theorem seqOuts_lb (r : String) :
    ∀ (ops : List MOp) (m : Manager) (rs : RoomState),
      keepsRoom m r ops = true → dictGet m r = some rs →
      ∀ v ∈ seqOuts m r ops, rs.photo_seq < v := by
  intro ops
  induction ops with
  | nil =>
    intro m rs hk hget v hv
    simp [seqOuts] at hv
  | cons op ops ih =>
    intro m rs hk hget v hv
    have hk2 : keepsRoom (applyMOp m op) r ops = true := by
      simp only [keepsRoom, Bool.and_eq_true] at hk
      exact hk.2
    have hroom1 : hasRoom (applyMOp m op) r = true := by
      simp only [keepsRoom, Bool.and_eq_true, Bool.or_eq_true, Bool.not_eq_true] at hk
      rcases hk.1 with h | h
      · rw [hasRoom, hget] at h
        simp at h
      · exact h
    obtain ⟨rs1, hget1⟩ : ∃ rs1, dictGet (applyMOp m op) r = some rs1 := by
      rw [hasRoom, Option.isSome_iff_exists] at hroom1
      exact hroom1
    have hmono : rs.photo_seq ≤ rs1.photo_seq :=
      applyMOp_seq_mono op m r rs rs1 hget hget1
    cases op with
    | nextSeqC r' =>
      by_cases hr : r' = r
      · subst hr
        simp only [seqOuts, eq_self_iff_true, if_true] at hv
        rcases List.mem_cons.mp hv with rfl | hv
        · rw [(next_seq_spec m r').1, seqNat, roomOf, hget]
          simp
        · have hlt := ih (applyMOp m (MOp.nextSeqC r')) rs1 hk2 hget1 v hv
          have hseq1 : rs1.photo_seq = rs.photo_seq + 1 := by
            have h2 := (next_seq_spec m r').2
            simp only [applyMOp] at hget1
            rw [h2] at hget1
            rw [← Option.some.inj hget1]
            simp [seqNat, roomOf, hget]
          omega
      · simp only [seqOuts, hr, if_false] at hv
        have hlt := ih (applyMOp m (MOp.nextSeqC r')) rs1 hk2 hget1 v hv
        omega
    | addC room dev ws now =>
      simp only [seqOuts] at hv
      have hlt := ih _ rs1 hk2 hget1 v hv
      omega
    | removeC room dev =>
      simp only [seqOuts] at hv
      have hlt := ih _ rs1 hk2 hget1 v hv
      omega
    | touchC room dev now =>
      simp only [seqOuts] at hv
      have hlt := ih _ rs1 hk2 hget1 v hv
      omega
    | joinRoleC room dev role =>
      simp only [seqOuts] at hv
      have hlt := ih _ rs1 hk2 hget1 v hv
      omega
    | acquireC room dev ttl now =>
      simp only [seqOuts] at hv
      have hlt := ih _ rs1 hk2 hget1 v hv
      omega
    | heartbeatC room dev ttl now =>
      simp only [seqOuts] at hv
      have hlt := ih _ rs1 hk2 hget1 v hv
      omega
    | releaseC room dev =>
      simp only [seqOuts] at hv
      have hlt := ih _ rs1 hk2 hget1 v hv
      omega

/-- Claim C6 amended: along any sequence of manager operations in which the
room's state is never discarded (no step deletes the room), the sequence
numbers handed out for that room are strictly increasing and never repeat;
the counter resets only when the emptied room is torn down and recreated. -/
theorem C6_seq_monotone_amended (r : String) :
    ∀ (ops : List MOp) (m : Manager), keepsRoom m r ops = true →
      List.Chain' (fun a b => a < b) (seqOuts m r ops) := by
  intro ops
  induction ops with
  | nil =>
    intro m hk
    simp [seqOuts]
  | cons op ops ih =>
    intro m hk
    have hk2 : keepsRoom (applyMOp m op) r ops = true := by
      simp only [keepsRoom, Bool.and_eq_true] at hk
      exact hk.2
    have hrest := ih (applyMOp m op) hk2
    cases op with
    | nextSeqC r' =>
      by_cases hr : r' = r
      · subst hr
        simp only [seqOuts, eq_self_iff_true, if_true]
        rw [List.chain'_cons']
        refine ⟨?_, hrest⟩
        intro y hy
        have hget1 := (next_seq_spec m r').2
        have hlb := seqOuts_lb r' ops (applyMOp m (MOp.nextSeqC r'))
          { roomOf m r' with photo_seq := seqNat m r' + 1 } hk2 hget1 y
        have hy2 : y ∈ seqOuts (applyMOp m (MOp.nextSeqC r')) r' ops := by
          cases he : (seqOuts (applyMOp m (MOp.nextSeqC r')) r' ops) with
          | nil => rw [he] at hy; simp at hy
          | cons a l =>
            rw [he] at hy
            simp at hy
            rw [hy]
            exact List.mem_cons_self y l
        have := hlb hy2
        rw [(next_seq_spec m r').1]
        simpa using this
      · simp only [seqOuts, hr, if_false]
        exact hrest
    | addC room dev ws now => exact hrest
    | removeC room dev => exact hrest
    | touchC room dev now => exact hrest
    | joinRoleC room dev role => exact hrest
    | acquireC room dev ttl now => exact hrest
    | heartbeatC room dev ttl now => exact hrest
    | releaseC room dev => exact hrest

/-- Witness for C6 amended: two photo events with the device staying in the
room produce the strictly increasing numbers 1 and 2. -/
theorem C6_seq_monotone_witness :
    keepsRoom [] "acc:1" c6WitnessOps = true ∧
    List.Chain' (fun a b => a < b) (seqOuts [] "acc:1" c6WitnessOps) :=
  ⟨by decide, C6_seq_monotone_amended "acc:1" c6WitnessOps [] (by decide)⟩
